import Mathlib

/-!
Verification of the `extcmd` library (a `subprocess.Popen` wrapper that
captures a child's stdout/stderr line by line and feeds each line to a
pluggable delegate) against its natural-language specification.

The Python source is shallowly embedded:

* A delegate is a state-passing function: Python delegates carry mutable
  state (e.g. the sinks a `Redirect` writes to), so `on_line` is modelled
  as `σ → stream_name → line → σ × Option Err`, where a `some` error
  component models an exception raised by `on_line`.
* A child process handle (`subprocess.Popen` result) is modelled by the
  surface the code consumes: the two output streams (as the list of
  successive `readline` outcomes) and the exit code `wait` would report.
  The `returncode` attribute of a handle is `none` until a `wait` call
  completes; `kill` does not set it (it only signals the child).
* The threaded `call` of `ExternalCommandWithDelegate` is embedded as a
  sequential composition that follows the happens-before order enforced
  by the joins in the source: readers run to end-of-stream, their
  enqueue interleaving is chosen by a scheduling oracle `sched`, the
  sentinel is enqueued after both readers are joined, and the worker
  drains the queue up to the sentinel.  An uncaught exception inside a
  thread kills that thread only: `Thread.join` does not re-raise it, so
  the model records it in a `...Outcome` field that the caller of `call`
  never sees through the return value.
-/

set_option autoImplicit false

/-- Exceptions that the embedded code can raise. `CalledProcessError` is the
`subprocess.CalledProcessError` raised by `check_call` (the spec's
`NonZeroExit`), `AssertionError` models a failed `assert` statement (the
spec's `InvalidStreamTag` defect), `IOError` models an I/O error raised by
`stream.readline`, and `DelegateError` stands for an arbitrary exception
raised by a delegate's `on_line`. -/
inductive Err where
  | CalledProcessError (returncode : Int) (cmd : List String)
  | AssertionError
  | IOError
  | DelegateError (msg : String)
  deriving DecidableEq, Repr

/-- One captured line tagged with its originating stream: the `(stream_name,
line)` tuples built in `_read_stream` (src/extcmd.py:134). -/
structure LineEvent where
  stream_name : String
  line : String
  deriving DecidableEq, Repr

/-- A delegate's `on_line` method: given the delegate's current state and a
line event it returns the new state and, when it raises, the exception. -/
def Delegate (σ : Type) : Type := σ → String → String → σ × Option Err

/-- A value a caller may pass for the `stdout=`/`stderr=` options of
`subprocess.Popen`: the capture pipe or some caller-chosen redirection. -/
inductive Redirection where
  | PIPE
  | toFile (name : String)
  deriving DecidableEq, Repr

/-- The keyword arguments of `subprocess.Popen` that the code touches or that
the claims mention, each `none` when the caller did not supply it. -/
structure Kwargs where
  stdout : Option Redirection := none
  stderr : Option Redirection := none
  cwd : Option String := none
  env : Option (List (String × String)) := none
  args : Option (List String) := none
  close_fds : Option Bool := none
  deriving DecidableEq, Repr

/-- One outcome of a `stream.readline()` call: a returned string, or an
I/O error raised by the read.  Python 2 `readline` returns `""` exactly at
end-of-stream; a stream is modelled by the list of its successive
`readline` outcomes, end-of-stream being the end of the list (or an
explicit `.line ""`). -/
inductive ReadResult where
  | line (s : String)
  | ioError
  deriving DecidableEq, Repr

/-- The child-process handle surface consumed by the code (src/extcmd.py
uses `proc.stdout`, `proc.stderr`, `proc.wait()`, `proc.kill()`,
`proc.returncode`): the two streams and the exit code a completed `wait`
reports. -/
structure Proc where
  stdoutReads : List ReadResult
  stderrReads : List ReadResult
  exitCode : Int
  deriving Repr

/-- `ExternalCommand._popen` (src/extcmd.py:61-64): when the `posix` module
is importable it forces `close_fds=True`, then hands the arguments to
`subprocess.Popen` unchanged. -/
def ExternalCommand.popenKwargs (posixAvailable : Bool) (kw : Kwargs) : Kwargs :=
  if posixAvailable then { kw with close_fds := some true } else kw

/-- `ExternalCommand.call` (src/extcmd.py:39-45): launch the child via
`_popen`, `wait()` for it, return `proc.returncode`.  `popen` is the
external process-launch collaborator: it maps the positional command
spec and the keyword arguments to the resulting process handle. -/
def ExternalCommand.call (posixAvailable : Bool) (popen : List String → Kwargs → Proc)
    (args0 : List String) (kw : Kwargs) : Int :=
  (popen args0 (ExternalCommand.popenKwargs posixAvailable kw)).exitCode

/-- The command specification `check_call` reports on failure:
`kwargs.get("args") or args[0]` (src/extcmd.py:58) — the `args` keyword
argument when present and truthy (a non-empty list), else the first
positional argument. -/
def ExternalCommand.reportedCmd (kw : Kwargs) (args0 : List String) : List String :=
  match kw.args with
  | some a => if a.isEmpty then args0 else a
  | none => args0

/-- `ExternalCommand.check_call` (src/extcmd.py:47-59): run `call`, raise
`CalledProcessError(returncode, kwargs.get("args") or args[0])` when the
return code is non-zero, otherwise return it. -/
def ExternalCommand.check_call (posixAvailable : Bool) (popen : List String → Kwargs → Proc)
    (args0 : List String) (kw : Kwargs) : Except Err Int :=
  let returncode := ExternalCommand.call posixAvailable popen args0 kw
  if returncode ≠ 0 then
    .error (.CalledProcessError returncode (ExternalCommand.reportedCmd kw args0))
  else
    .ok returncode

/-- `Chain.on_line` (src/extcmd.py:153-158): call `on_line` on each delegate
of `delegate_list` in list order.  An exception raised by a delegate
propagates, so the remaining delegates are not invoked. -/
def Chain.on_line {σ : Type} (delegate_list : List (Delegate σ)) (st : σ)
    (stream_name line : String) : σ × Option Err :=
  match delegate_list with
  | [] => (st, none)
  | d :: rest =>
    match d st stream_name line with
    | (st', some e) => (st', some e)
    | (st', none) => Chain.on_line rest st' stream_name line

/-- The two sinks a `Redirect` writes to (its `self.stdout`/`self.stderr`
file objects), each modelled by the string written to it so far. -/
structure RedirectSinks where
  stdout : String
  stderr : String
  deriving DecidableEq, Repr

/-- `Redirect.on_line` (src/extcmd.py:174-182): assert the stream name is
`"stdout"` or `"stderr"`, then write the line, verbatim, to the matching
sink.  A failed `assert` raises `AssertionError` before any write. -/
def Redirect.on_line : Delegate RedirectSinks := fun st stream_name line =>
  if stream_name = "stdout" ∨ stream_name = "stderr" then
    if stream_name = "stdout" then
      ({ st with stdout := st.stdout ++ line }, none)
    else
      ({ st with stderr := st.stderr ++ line }, none)
  else
    (st, some .AssertionError)

/-- `Transform.on_line` (src/extcmd.py:200-206): compute
`callback(stream_name, line)` and pass the transformed line, under the
unchanged stream name, to the wrapped delegate. -/
def Transform.on_line {σ : Type} (callback : String → String → String)
    (delegate : Delegate σ) : Delegate σ := fun st stream_name line =>
  let transformed_line := callback stream_name line
  delegate st stream_name transformed_line

/-- A delegate together with a log of every `(stream_name, line)` call made
to it, used to state how many calls a combinator forwards and in which
order. -/
def traceDelegate {σ : Type} (d : Delegate σ) : Delegate (σ × List LineEvent) :=
  fun st stream_name line =>
    let r := d st.1 stream_name line
    ((r.1, st.2 ++ [⟨stream_name, line⟩]), r.2)

/-- A delegate whose only effect is to append its index to the log; its
`on_line` always succeeds. -/
def logDelegate (i : Nat) : Delegate (List Nat) := fun tr _ _ => (tr ++ [i], none)

/-- A delegate that appends its index to the log and then raises `e`. -/
def failDelegate (i : Nat) (e : Err) : Delegate (List Nat) :=
  fun tr _ _ => (tr ++ [i], some e)

/-- `ExternalCommandWithDelegate._read_stream` (src/extcmd.py:132-135): the
loop `for line in iter(stream.readline, '')` reads lines and enqueues a
`(stream_name, line)` event for each, stopping when `readline` returns
`""` (end of stream).  An I/O error raised by `readline` propagates out of
the loop, killing the reader thread; the model returns the events the
reader enqueued before stopping, together with the exception (if any) the
thread died with. -/
def ExternalCommandWithDelegate.read_stream (reads : List ReadResult)
    (stream_name : String) : List LineEvent × Option Err :=
  match reads with
  | [] => ([], none)
  | .line l :: rest =>
    if l = "" then ([], none)
    else
      let r := ExternalCommandWithDelegate.read_stream rest stream_name
      (⟨stream_name, l⟩ :: r.1, r.2)
  | .ioError :: _ => ([], some .IOError)

/-- `ExternalCommandWithDelegate._drain_queue` (src/extcmd.py:137-142): loop
dequeueing one item at a time; stop on the `None` sentinel, otherwise call
`self._delegate.on_line(*args)`.  An exception raised by the delegate
propagates out of the loop, killing the worker thread.  Returns the final
delegate state, the events `on_line` was invoked on (in order) and the
exception (if any) the thread died with.  The `[]` case is unreachable
from `call`: a real worker would block on `Queue.get` there, but `call`
always enqueues the sentinel, so the worker's queue is sentinel-terminated. -/
def ExternalCommandWithDelegate.drain_queue {σ : Type} (delegate : Delegate σ)
    (st : σ) (queue : List (Option LineEvent)) : σ × List LineEvent × Option Err :=
  match queue with
  | [] => (st, [], none)
  | none :: _ => (st, [], none)
  | some ev :: rest =>
    match delegate st ev.stream_name ev.line with
    | (st', some e) => (st', [ev], some e)
    | (st', none) =>
      let r := ExternalCommandWithDelegate.drain_queue delegate st' rest
      (r.1, ev :: r.2.1, r.2.2)

/-- The order in which the two reader threads' enqueues interleave on the
shared queue is scheduler-chosen; `interleaveBy sched` realises one such
interleaving of the stdout events `xs` and the stderr events `ys`: each
`Bool` of `sched` picks which non-exhausted reader enqueues next. -/
def interleaveBy {α : Type} : List Bool → List α → List α → List α
  | [], xs, ys => xs ++ ys
  | _ :: _, [], ys => ys
  | _ :: _, x :: xs, [] => x :: xs
  | b :: s, x :: xs, y :: ys =>
    if b then x :: interleaveBy s xs (y :: ys)
    else y :: interleaveBy s (x :: xs) ys

/-- Everything observable about one `ExternalCommandWithDelegate.call`
invocation. `retval` is the value `call` returns to its caller
(`proc.returncode`, which is `none` when no `wait` completed); the
`...Outcome` fields record the exception, if any, that killed the
corresponding thread — `Thread.join` swallows it, so it is not part of
`retval`. -/
structure CallResult (σ : Type) where
  launchedArgs : List String
  launchedKwargs : Kwargs
  killRequested : Bool
  stdoutReaderOutcome : Option Err
  stderrReaderOutcome : Option Err
  queueItems : List (Option LineEvent)
  finalState : σ
  delivered : List LineEvent
  workerOutcome : Option Err
  retval : Option Int
  deriving Repr

/-- `ExternalCommandWithDelegate.call` (src/extcmd.py:93-127), embedded in
the happens-before order its joins enforce:
1. overwrite `kwargs['stdout']` and `kwargs['stderr']` with
   `subprocess.PIPE` and launch the child via `_popen`;
2. the two reader threads run to end-of-stream, their enqueues
   interleaving on the queue as chosen by the scheduling oracle `sched`;
3. `proc.wait()` either completes, making `proc.returncode` the child's
   exit code, or is interrupted by `KeyboardInterrupt`
   (`interrupted = true`), in which case `_on_keyboard_interrupt` kills
   the child and `proc.returncode` stays unset (`none`);
4. the `finally` block joins both readers, enqueues the `None` sentinel,
   and joins the worker, which has drained the queue up to the sentinel;
5. `call` returns `proc.returncode`. -/
def ExternalCommandWithDelegate.call {σ : Type} (posixAvailable : Bool)
    (popen : List String → Kwargs → Proc) (args0 : List String) (kw : Kwargs)
    (delegate : Delegate σ) (st : σ) (sched : List Bool) (interrupted : Bool) :
    CallResult σ :=
  let kw1 : Kwargs := { kw with stdout := some .PIPE, stderr := some .PIPE }
  let kw2 := ExternalCommand.popenKwargs posixAvailable kw1
  let proc := popen args0 kw2
  let stdoutRead := ExternalCommandWithDelegate.read_stream proc.stdoutReads "stdout"
  let stderrRead := ExternalCommandWithDelegate.read_stream proc.stderrReads "stderr"
  let returncode : Option Int := if interrupted then none else some proc.exitCode
  let queueEvents := interleaveBy sched stdoutRead.1 stderrRead.1
  let queueItems := queueEvents.map some ++ [none]
  let worker := ExternalCommandWithDelegate.drain_queue delegate st queueItems
  { launchedArgs := args0
    launchedKwargs := kw2
    killRequested := interrupted
    stdoutReaderOutcome := stdoutRead.2
    stderrReaderOutcome := stderrRead.2
    queueItems := queueItems
    finalState := worker.1
    delivered := worker.2.1
    workerOutcome := worker.2.2
    retval := returncode }

/-- Run a delegate's `on_line` on each event of a list in turn, stopping at
the first event on which it raises; returns the final state and the
exception, if any. -/
def onLineAll {σ : Type} (d : Delegate σ) (st : σ) : List LineEvent → σ × Option Err
  | [] => (st, none)
  | ev :: rest =>
    match d st ev.stream_name ev.line with
    | (st', some e) => (st', some e)
    | (st', none) => onLineAll d st' rest

/-! ### Helper lemmas -/

/-- Any scheduled interleaving of the two readers' event lists is a
permutation of their concatenation: it contains exactly the readers'
events. -/
theorem interleaveBy_perm {α : Type} (s : List Bool) (xs ys : List α) :
    List.Perm (interleaveBy s xs ys) (xs ++ ys) := by
  induction s generalizing xs ys with
  | nil => simp [interleaveBy]
  | cons b s ih =>
    cases xs with
    | nil => simp [interleaveBy]
    | cons x xs =>
      cases ys with
      | nil => simp [interleaveBy]
      | cons y ys =>
        cases b with
        | true => simpa [interleaveBy] using (ih xs (y :: ys)).cons x
        | false =>
          simp only [interleaveBy, if_neg (Bool.false_ne_true)]
          exact ((ih (x :: xs) ys).cons y).trans List.perm_middle.symm

/-- The enqueue list `qs.map some ++ [none]` contains exactly one sentinel. -/
theorem count_none_map_some_append (qs : List LineEvent) :
    (qs.map some ++ [(none : Option LineEvent)]).count none = 1 := by
  have h0 : (qs.map some).count (none : Option LineEvent) = 0 :=
    List.count_eq_zero.mpr (by simp)
  simp [List.count_append, h0]

/-- A stream whose `readline` outcomes are the non-empty lines `pre`
followed by end-of-stream is read into one event per line, in order, and
the reader thread finishes cleanly. -/
theorem read_stream_lines (pre : List String) (name : String)
    (h : ∀ l ∈ pre, l ≠ "") :
    ExternalCommandWithDelegate.read_stream (pre.map ReadResult.line) name
      = (pre.map fun l => ⟨name, l⟩, none) := by
  induction pre with
  | nil => rfl
  | cons l pre ih =>
    have hl : l ≠ "" := h l (List.mem_cons_self l pre)
    have ih' := ih fun x hx => h x (List.mem_cons_of_mem _ hx)
    simp [ExternalCommandWithDelegate.read_stream, hl, ih']

/-- A stream whose `readline` raises an I/O error after the non-empty lines
`pre` produces exactly the events for `pre`; the reader thread dies with
the `IOError`. -/
theorem read_stream_ioError (pre : List String) (rest : List ReadResult)
    (name : String) (h : ∀ l ∈ pre, l ≠ "") :
    ExternalCommandWithDelegate.read_stream
        (pre.map ReadResult.line ++ .ioError :: rest) name
      = (pre.map fun l => ⟨name, l⟩, some .IOError) := by
  induction pre with
  | nil => rfl
  | cons l pre ih =>
    have hl : l ≠ "" := h l (List.mem_cons_self l pre)
    have ih' := ih fun x hx => h x (List.mem_cons_of_mem _ hx)
    simp [ExternalCommandWithDelegate.read_stream, hl, ih']

/-- A delegate that never raises also never raises over a whole event list. -/
theorem onLineAll_of_never_fails {σ : Type} (d : Delegate σ)
    (h : ∀ st s l, (d st s l).2 = none) (st : σ) (evs : List LineEvent) :
    (onLineAll d st evs).2 = none := by
  induction evs generalizing st with
  | nil => rfl
  | cons ev evs ih =>
    rcases hd : d st ev.stream_name ev.line with ⟨st1, e1⟩
    have : e1 = none := by have := h st ev.stream_name ev.line; rw [hd] at this; exact this
    subst this
    simp [onLineAll, hd, ih]

/-- Draining a queue that starts with events the delegate handles without
raising delivers those events first and continues with the rest of the
queue from the delegate state they produce. -/
theorem drain_queue_map_some_append {σ : Type} (d : Delegate σ) (st : σ)
    (pre : List LineEvent) (rest : List (Option LineEvent))
    (h : (onLineAll d st pre).2 = none) :
    ExternalCommandWithDelegate.drain_queue d st (pre.map some ++ rest)
      = ((ExternalCommandWithDelegate.drain_queue d (onLineAll d st pre).1 rest).1,
         pre ++ (ExternalCommandWithDelegate.drain_queue d (onLineAll d st pre).1 rest).2.1,
         (ExternalCommandWithDelegate.drain_queue d (onLineAll d st pre).1 rest).2.2) := by
  induction pre generalizing st with
  | nil => simp [onLineAll]
  | cons ev pre ih =>
    rcases hd : d st ev.stream_name ev.line with ⟨st1, e1⟩
    cases e1 with
    | some e => rw [onLineAll, hd] at h; exact absurd h (by simp)
    | none =>
      have h' : (onLineAll d st1 pre).2 = none := by rwa [onLineAll, hd] at h
      simp [ExternalCommandWithDelegate.drain_queue, onLineAll, hd, ih st1 h']

/-- The worker dies with the delegate's exception when `on_line` raises on
the event at the head of the queue; nothing further is dequeued. -/
theorem drain_queue_fail_head {σ : Type} (d : Delegate σ) (st : σ)
    (ev : LineEvent) (rest : List (Option LineEvent)) (e : Err)
    (h : (d st ev.stream_name ev.line).2 = some e) :
    ExternalCommandWithDelegate.drain_queue d st (some ev :: rest)
      = ((d st ev.stream_name ev.line).1, [ev], some e) := by
  rcases hd : d st ev.stream_name ev.line with ⟨st1, e1⟩
  rw [hd] at h
  simp at h
  subst h
  simp [ExternalCommandWithDelegate.drain_queue, hd]

/-- With a delegate that never raises, draining `qs.map some ++ [none]`
invokes `on_line` on every event of `qs`, in order, and the worker then
stops cleanly at the sentinel. -/
theorem drain_queue_all {σ : Type} (d : Delegate σ)
    (h : ∀ st s l, (d st s l).2 = none) (st : σ) (qs : List LineEvent) :
    (ExternalCommandWithDelegate.drain_queue d st (qs.map some ++ [none])).2.1 = qs ∧
    (ExternalCommandWithDelegate.drain_queue d st (qs.map some ++ [none])).2.2 = none := by
  have hall := onLineAll_of_never_fails d h st qs
  rw [drain_queue_map_some_append d st qs [none] hall]
  simp [ExternalCommandWithDelegate.drain_queue]

/-- `Chain.on_line` over an appended delegate list runs the first segment
and, only when no delegate of it raised, continues with the second segment
from the state the first produced. -/
theorem Chain_on_line_append {σ : Type} (ds₁ ds₂ : List (Delegate σ))
    (st : σ) (s l : String) :
    Chain.on_line (ds₁ ++ ds₂) st s l =
      (let r := Chain.on_line ds₁ st s l
       match r.2 with
       | some e => (r.1, some e)
       | none => Chain.on_line ds₂ r.1 s l) := by
  induction ds₁ generalizing st with
  | nil => simp [Chain.on_line]
  | cons d ds ih =>
    rcases hd : d st s l with ⟨st1, e1⟩
    cases e1 <;> simp [Chain.on_line, hd, ih]

/-- Chaining index-logging delegates appends exactly their indices, in list
order, to the log. -/
theorem Chain_on_line_log (is : List Nat) (tr : List Nat) (s l : String) :
    Chain.on_line (is.map logDelegate) tr s l = (tr ++ is, none) := by
  induction is generalizing tr with
  | nil => simp [Chain.on_line]
  | cons i is ih => simp [Chain.on_line, logDelegate, ih]

/-! ### Claim theorems -/

/-- Claim C1: for every command invocation, `check_call` fails with a
`CalledProcessError` (the `NonZeroExit` condition) carrying the child's
exit code and the command specification exactly when the exit code is
non-zero, and otherwise returns the exit code; plain `call` on the same
command returns that same exit code without failing. -/
theorem check_call_nonzero_exit (posixAvailable : Bool)
    (popen : List String → Kwargs → Proc) (args0 : List String) (kw : Kwargs) :
    ExternalCommand.call posixAvailable popen args0 kw
      = (popen args0 (ExternalCommand.popenKwargs posixAvailable kw)).exitCode ∧
    (ExternalCommand.check_call posixAvailable popen args0 kw
        = .error (.CalledProcessError (ExternalCommand.call posixAvailable popen args0 kw)
            (ExternalCommand.reportedCmd kw args0))
      ↔ ExternalCommand.call posixAvailable popen args0 kw ≠ 0) ∧
    (ExternalCommand.check_call posixAvailable popen args0 kw
        = .ok (ExternalCommand.call posixAvailable popen args0 kw)
      ↔ ExternalCommand.call posixAvailable popen args0 kw = 0) := by
  refine ⟨rfl, ?_, ?_⟩ <;>
    by_cases h : ExternalCommand.call posixAvailable popen args0 kw = 0 <;>
    simp [ExternalCommand.check_call, h]

/-- Claim C5: `Chain.on_line` invokes each delegate's `on_line` in the
configured list order; the first delegate to fail aborts the remaining
calls and its failure is propagated to the chain's caller.  The first
conjunct is the general decomposition (the second segment runs only when
no delegate of the first raised, from the state it produced); the second
shows index-logging delegates are invoked exactly in list order; the
third shows a failing delegate is still invoked after those before it,
the delegates after it are never invoked, and its error is returned. -/
theorem Chain_on_line_order :
    (∀ (σ : Type) (ds₁ ds₂ : List (Delegate σ)) (st : σ) (s l : String),
      Chain.on_line (ds₁ ++ ds₂) st s l =
        (let r := Chain.on_line ds₁ st s l
         match r.2 with
         | some e => (r.1, some e)
         | none => Chain.on_line ds₂ r.1 s l)) ∧
    (∀ (is : List Nat) (s l : String),
      Chain.on_line (is.map logDelegate) [] s l = (is, none)) ∧
    (∀ (is js : List Nat) (k : Nat) (e : Err) (s l : String),
      Chain.on_line
          (is.map logDelegate ++ failDelegate k e :: js.map logDelegate) [] s l
        = (is ++ [k], some e)) := by
  refine ⟨fun σ => Chain_on_line_append, ?_, ?_⟩
  · intro is s l
    simpa using Chain_on_line_log is [] s l
  · intro is js k e s l
    rw [Chain_on_line_append]
    simp [Chain_on_line_log, Chain.on_line, failDelegate]

/-- Claim C6: for a line event tagged `"stdout"` or `"stderr"`,
`Redirect.on_line` appends the line verbatim to the matching sink, leaves
the other sink untouched, and raises nothing. -/
theorem Redirect_on_line_verbatim (st : RedirectSinks) (line : String) :
    Redirect.on_line st "stdout" line
      = ({ st with stdout := st.stdout ++ line }, none) ∧
    Redirect.on_line st "stderr" line
      = ({ st with stderr := st.stderr ++ line }, none) ∧
    (Redirect.on_line st "stdout" line).1.stderr = st.stderr ∧
    (Redirect.on_line st "stderr" line).1.stdout = st.stdout := by
  refine ⟨?_, ?_, ?_, ?_⟩ <;> simp [Redirect.on_line]

/-- Claim C7: for a stream tag outside `{"stdout", "stderr"}`,
`Redirect.on_line` raises the fatal `AssertionError` (the spec's
`InvalidStreamTag` defect) with both sinks unwritten; under the
precondition that the tag is `"stdout"` or `"stderr"` the assertion
branch is unreachable (no error is raised). -/
theorem Redirect_on_line_invalid_tag (st : RedirectSinks) (s line : String) :
    (s ≠ "stdout" → s ≠ "stderr" →
      Redirect.on_line st s line = (st, some .AssertionError)) ∧
    (s = "stdout" ∨ s = "stderr" → (Redirect.on_line st s line).2 = none) := by
  constructor
  · intro h1 h2
    simp [Redirect.on_line, h1, h2]
  · rintro (h | h) <;> subst h <;> simp [Redirect.on_line]

/-- Claim C7 witness: at the concrete tag `"tty"` the assertion fires with
the sinks unchanged; at `"stdout"` no error is raised. -/
theorem Redirect_on_line_invalid_tag_witness :
    Redirect.on_line ⟨"A", "B"⟩ "tty" "x\n" = (⟨"A", "B"⟩, some .AssertionError) ∧
    (Redirect.on_line ⟨"A", "B"⟩ "stdout" "x\n").2 = none :=
  ⟨(Redirect_on_line_invalid_tag ⟨"A", "B"⟩ "tty" "x\n").1
      (by decide) (by decide),
    (Redirect_on_line_invalid_tag ⟨"A", "B"⟩ "stdout" "x\n").2 (Or.inl rfl)⟩

/-- Claim C8: `Transform.on_line` forwards to the wrapped delegate exactly
one call, with the stream tag unchanged and the content replaced by the
callback applied to the `(stream_tag, content)` pair.  The first conjunct
is the general equation; the second instruments the wrapped delegate with
a call log and shows it records exactly one new call, `(s, callback s l)`. -/
theorem Transform_on_line_forwards (σ : Type) (callback : String → String → String)
    (d : Delegate σ) (st : σ) (tr : List LineEvent) (s l : String) :
    Transform.on_line callback d st s l = d st s (callback s l) ∧
    Transform.on_line callback (traceDelegate d) (st, tr) s l
      = (((d st s (callback s l)).1, tr ++ [⟨s, callback s l⟩]),
         (d st s (callback s l)).2) :=
  ⟨rfl, rfl⟩

/-- Claim C10: the delegate-aware `call` unconditionally overwrites any
caller-supplied `stdout`/`stderr` redirection options with the capture
pipes before launching the child, while the positional command spec and
the caller's `cwd`, `env` and `args` options reach the launch unchanged. -/
theorem call_overwrites_stdio_options (σ : Type) (posixAvailable : Bool)
    (popen : List String → Kwargs → Proc) (args0 : List String) (kw : Kwargs)
    (d : Delegate σ) (st : σ) (sched : List Bool) (interrupted : Bool) :
    (ExternalCommandWithDelegate.call posixAvailable popen args0 kw d st sched
      interrupted).launchedKwargs.stdout = some .PIPE ∧
    (ExternalCommandWithDelegate.call posixAvailable popen args0 kw d st sched
      interrupted).launchedKwargs.stderr = some .PIPE ∧
    (ExternalCommandWithDelegate.call posixAvailable popen args0 kw d st sched
      interrupted).launchedArgs = args0 ∧
    (ExternalCommandWithDelegate.call posixAvailable popen args0 kw d st sched
      interrupted).launchedKwargs.cwd = kw.cwd ∧
    (ExternalCommandWithDelegate.call posixAvailable popen args0 kw d st sched
      interrupted).launchedKwargs.env = kw.env ∧
    (ExternalCommandWithDelegate.call posixAvailable popen args0 kw d st sched
      interrupted).launchedKwargs.args = kw.args := by
  cases posixAvailable <;>
    simp [ExternalCommandWithDelegate.call, ExternalCommand.popenKwargs]

/-- Claim C3, corrected part: an interrupted `call` (KeyboardInterrupt
during `proc.wait()`) requests a kill of the child, still performs the
join-readers / enqueue-sentinel / join-worker shutdown identically to an
uninterrupted run, and raises nothing — but it returns `none`
(`proc.returncode` was never set by a completed `wait`), not the child's
eventual exit code. -/
theorem call_interrupt_kill_and_shutdown (σ : Type) (posixAvailable : Bool)
    (popen : List String → Kwargs → Proc) (args0 : List String) (kw : Kwargs)
    (d : Delegate σ) (st : σ) (sched : List Bool) :
    (ExternalCommandWithDelegate.call posixAvailable popen args0 kw d st sched
      true).killRequested = true ∧
    (ExternalCommandWithDelegate.call posixAvailable popen args0 kw d st sched
      true).retval = none ∧
    (ExternalCommandWithDelegate.call posixAvailable popen args0 kw d st sched
        true).queueItems
      = (ExternalCommandWithDelegate.call posixAvailable popen args0 kw d st sched
        false).queueItems ∧
    (ExternalCommandWithDelegate.call posixAvailable popen args0 kw d st sched
        true).delivered
      = (ExternalCommandWithDelegate.call posixAvailable popen args0 kw d st sched
        false).delivered ∧
    (ExternalCommandWithDelegate.call posixAvailable popen args0 kw d st sched
        true).finalState
      = (ExternalCommandWithDelegate.call posixAvailable popen args0 kw d st sched
        false).finalState ∧
    (ExternalCommandWithDelegate.call posixAvailable popen args0 kw d st sched
        true).workerOutcome
      = (ExternalCommandWithDelegate.call posixAvailable popen args0 kw d st sched
        false).workerOutcome ∧
    (ExternalCommandWithDelegate.call posixAvailable popen args0 kw d st sched
        true).stdoutReaderOutcome
      = (ExternalCommandWithDelegate.call posixAvailable popen args0 kw d st sched
        false).stdoutReaderOutcome ∧
    (ExternalCommandWithDelegate.call posixAvailable popen args0 kw d st sched
        true).stderrReaderOutcome
      = (ExternalCommandWithDelegate.call posixAvailable popen args0 kw d st sched
        false).stderrReaderOutcome :=
  ⟨rfl, rfl, rfl, rfl, rfl, rfl, rfl, rfl⟩

/-- Claim C3, counterexample to the claim as stated: for a child whose
eventual exit code is 7, the interrupted `call` requests the kill and
shuts down cleanly but returns `none` — not the child's eventual exit
code 7 — because the killed child is never waited on again, so
`proc.returncode` is never set. -/
theorem call_interrupted_returns_none :
    (ExternalCommandWithDelegate.call (σ := Unit) true
        (fun _ _ => { stdoutReads := [.line "a\n"], stderrReads := [], exitCode := 7 })
        ["cmd"] {} (fun s _ _ => (s, none)) () [] true).killRequested = true ∧
    (ExternalCommandWithDelegate.call (σ := Unit) true
        (fun _ _ => { stdoutReads := [.line "a\n"], stderrReads := [], exitCode := 7 })
        ["cmd"] {} (fun s _ _ => (s, none)) () [] true).retval = none ∧
    (ExternalCommandWithDelegate.call (σ := Unit) true
        (fun _ _ => { stdoutReads := [.line "a\n"], stderrReads := [], exitCode := 7 })
        ["cmd"] {} (fun s _ _ => (s, none)) () [] true).retval ≠ some 7 := by
  refine ⟨rfl, rfl, ?_⟩
  intro h
  exact Option.noConfusion h

/-- Claim C4: every delegate-aware `call` enqueues exactly one sentinel on
the queue, and it sits after every reader event (the sentinel is enqueued
only once both Line Readers have been joined), so with a delegate whose
`on_line` never raises the worker invokes `on_line` on every real line
event, in queue order, before stopping at the sentinel. -/
theorem call_enqueues_one_sentinel_last (σ : Type) (posixAvailable : Bool)
    (popen : List String → Kwargs → Proc) (args0 : List String) (kw : Kwargs)
    (d : Delegate σ) (st : σ) (sched : List Bool) (interrupted : Bool)
    (stdoutEvents stderrEvents : List LineEvent)
    (hd : ∀ st' s l, (d st' s l).2 = none)
    (hso : stdoutEvents = (ExternalCommandWithDelegate.read_stream
      (popen args0 (ExternalCommand.popenKwargs posixAvailable
        { kw with stdout := some .PIPE, stderr := some .PIPE })).stdoutReads
      "stdout").1)
    (hse : stderrEvents = (ExternalCommandWithDelegate.read_stream
      (popen args0 (ExternalCommand.popenKwargs posixAvailable
        { kw with stdout := some .PIPE, stderr := some .PIPE })).stderrReads
      "stderr").1) :
    (ExternalCommandWithDelegate.call posixAvailable popen args0 kw d st sched
        interrupted).queueItems
      = (interleaveBy sched stdoutEvents stderrEvents).map some ++ [none] ∧
    (ExternalCommandWithDelegate.call posixAvailable popen args0 kw d st sched
        interrupted).queueItems.count none = 1 ∧
    (ExternalCommandWithDelegate.call posixAvailable popen args0 kw d st sched
        interrupted).delivered
      = interleaveBy sched stdoutEvents stderrEvents ∧
    (ExternalCommandWithDelegate.call posixAvailable popen args0 kw d st sched
        interrupted).workerOutcome = none ∧
    (∀ ev : LineEvent, ev ∈ stdoutEvents ∨ ev ∈ stderrEvents →
      ev ∈ (ExternalCommandWithDelegate.call posixAvailable popen args0 kw d st
        sched interrupted).delivered) := by
  subst hso
  subst hse
  have hdel := drain_queue_all d hd st
    (interleaveBy sched
      (ExternalCommandWithDelegate.read_stream
        (popen args0 (ExternalCommand.popenKwargs posixAvailable
          { kw with stdout := some .PIPE, stderr := some .PIPE })).stdoutReads
        "stdout").1
      (ExternalCommandWithDelegate.read_stream
        (popen args0 (ExternalCommand.popenKwargs posixAvailable
          { kw with stdout := some .PIPE, stderr := some .PIPE })).stderrReads
        "stderr").1)
  have hdeliv : (ExternalCommandWithDelegate.call posixAvailable popen args0 kw
      d st sched interrupted).delivered = _ := hdel.1
  refine ⟨rfl, count_none_map_some_append _, hdeliv, hdel.2, ?_⟩
  intro ev h
  rw [hdeliv]
  exact (interleaveBy_perm _ _ _).mem_iff.mpr (List.mem_append.mpr h)

/-- Claim C4 witness: with one stdout line, one stderr line and the
schedule that enqueues stdout first, the queue is the two events followed
by the single sentinel, and both events are delivered. -/
theorem call_enqueues_one_sentinel_last_witness :
    (ExternalCommandWithDelegate.call (σ := Unit) true
        (fun _ _ => { stdoutReads := [.line "a\n"], stderrReads := [.line "b\n"], exitCode := 0 })
        ["cmd"] {} (fun s _ _ => (s, none)) () [true] false).queueItems
      = (interleaveBy [true] [⟨"stdout", "a\n"⟩] [⟨"stderr", "b\n"⟩]).map some
          ++ [none] ∧
    (ExternalCommandWithDelegate.call (σ := Unit) true
        (fun _ _ => { stdoutReads := [.line "a\n"], stderrReads := [.line "b\n"], exitCode := 0 })
        ["cmd"] {} (fun s _ _ => (s, none)) () [true] false).queueItems.count none
      = 1 ∧
    (ExternalCommandWithDelegate.call (σ := Unit) true
        (fun _ _ => { stdoutReads := [.line "a\n"], stderrReads := [.line "b\n"], exitCode := 0 })
        ["cmd"] {} (fun s _ _ => (s, none)) () [true] false).delivered
      = interleaveBy [true] [⟨"stdout", "a\n"⟩] [⟨"stderr", "b\n"⟩] ∧
    (ExternalCommandWithDelegate.call (σ := Unit) true
        (fun _ _ => { stdoutReads := [.line "a\n"], stderrReads := [.line "b\n"], exitCode := 0 })
        ["cmd"] {} (fun s _ _ => (s, none)) () [true] false).workerOutcome
      = none ∧
    (∀ ev : LineEvent,
      ev ∈ [(⟨"stdout", "a\n"⟩ : LineEvent)] ∨ ev ∈ [(⟨"stderr", "b\n"⟩ : LineEvent)] →
      ev ∈ (ExternalCommandWithDelegate.call (σ := Unit) true
        (fun _ _ => { stdoutReads := [.line "a\n"], stderrReads := [.line "b\n"], exitCode := 0 })
        ["cmd"] {} (fun s _ _ => (s, none)) () [true] false).delivered) :=
  call_enqueues_one_sentinel_last Unit true
    (fun _ _ => { stdoutReads := [.line "a\n"], stderrReads := [.line "b\n"], exitCode := 0 })
    ["cmd"] {} (fun s _ _ => (s, none)) () [true] false
    [⟨"stdout", "a\n"⟩] [⟨"stderr", "b\n"⟩]
    (fun _ _ _ => rfl) rfl rfl

/-- Claim C2, counterexample to the claim as stated: with a delegate whose
`on_line` always raises, the error does leave the Delivery Worker's loop —
the worker thread dies with it — but it is not propagated out of `call`
to the caller: the `Thread.join` in `call`'s `finally` block swallows the
worker thread's exception, and `call` returns the child's exit code 0 as
if nothing had happened. -/
theorem call_swallows_delegate_error :
    (ExternalCommandWithDelegate.call (σ := Unit) true
        (fun _ _ => { stdoutReads := [.line "hi\n"], stderrReads := [], exitCode := 0 })
        ["cmd"] {} (fun _ _ _ => ((), some (.DelegateError "boom"))) () [] false).workerOutcome
      = some (.DelegateError "boom") ∧
    (ExternalCommandWithDelegate.call (σ := Unit) true
        (fun _ _ => { stdoutReads := [.line "hi\n"], stderrReads := [], exitCode := 0 })
        ["cmd"] {} (fun _ _ _ => ((), some (.DelegateError "boom"))) () [] false).retval
      = some 0 :=
  ⟨rfl, rfl⟩

/-- Claim C2, amended: an error raised by the delegate during `on_line`
propagates out of the Delivery Worker's loop and kills the worker thread
— the failing call is not retried and no later queue item is delivered —
but it is not propagated out of `call` to its caller: `call` still
returns `proc.returncode` as usual. -/
theorem delegate_error_confined_to_worker (σ : Type) (posixAvailable : Bool)
    (popen : List String → Kwargs → Proc) (args0 : List String) (kw : Kwargs)
    (d : Delegate σ) (st : σ) (sched : List Bool) (interrupted : Bool)
    (pre post : List LineEvent) (ev : LineEvent) (e : Err)
    (hq : interleaveBy sched
        (ExternalCommandWithDelegate.read_stream
          (popen args0 (ExternalCommand.popenKwargs posixAvailable
            { kw with stdout := some .PIPE, stderr := some .PIPE })).stdoutReads
          "stdout").1
        (ExternalCommandWithDelegate.read_stream
          (popen args0 (ExternalCommand.popenKwargs posixAvailable
            { kw with stdout := some .PIPE, stderr := some .PIPE })).stderrReads
          "stderr").1
      = pre ++ ev :: post)
    (hpre : (onLineAll d st pre).2 = none)
    (hev : (d (onLineAll d st pre).1 ev.stream_name ev.line).2 = some e) :
    (ExternalCommandWithDelegate.call posixAvailable popen args0 kw d st sched
        interrupted).delivered = pre ++ [ev] ∧
    (ExternalCommandWithDelegate.call posixAvailable popen args0 kw d st sched
        interrupted).workerOutcome = some e ∧
    (ExternalCommandWithDelegate.call posixAvailable popen args0 kw d st sched
        interrupted).retval
      = (if interrupted then none
         else some (popen args0 (ExternalCommand.popenKwargs posixAvailable
           { kw with stdout := some .PIPE, stderr := some .PIPE })).exitCode) := by
  have hQ : ExternalCommandWithDelegate.drain_queue d st
        ((interleaveBy sched
          (ExternalCommandWithDelegate.read_stream
            (popen args0 (ExternalCommand.popenKwargs posixAvailable
              { kw with stdout := some .PIPE, stderr := some .PIPE })).stdoutReads
            "stdout").1
          (ExternalCommandWithDelegate.read_stream
            (popen args0 (ExternalCommand.popenKwargs posixAvailable
              { kw with stdout := some .PIPE, stderr := some .PIPE })).stderrReads
            "stderr").1).map some ++ [none])
      = ((d (onLineAll d st pre).1 ev.stream_name ev.line).1, pre ++ [ev], some e) := by
    rw [hq]
    have hsplit : (pre ++ ev :: post).map (some : LineEvent → Option LineEvent)
          ++ [(none : Option LineEvent)]
        = pre.map some ++ (some ev :: (post.map some ++ [none])) := by
      simp
    rw [hsplit, drain_queue_map_some_append d st pre _ hpre,
      drain_queue_fail_head d _ ev _ e hev]
  exact ⟨congrArg (fun p => p.2.1) hQ, congrArg (fun p => p.2.2) hQ, rfl⟩

/-- Claim C2 witness for the amended theorem: a delegate that raises on the
single stdout line is invoked once, kills the worker with its error, and
`call` still returns the exit code 5. -/
theorem delegate_error_confined_to_worker_witness :
    (ExternalCommandWithDelegate.call (σ := Unit) true
        (fun _ _ => { stdoutReads := [.line "a\n"], stderrReads := [], exitCode := 5 })
        ["cmd"] {} (fun _ _ _ => ((), some (.DelegateError "x"))) () [] false).delivered
      = [] ++ [⟨"stdout", "a\n"⟩] ∧
    (ExternalCommandWithDelegate.call (σ := Unit) true
        (fun _ _ => { stdoutReads := [.line "a\n"], stderrReads := [], exitCode := 5 })
        ["cmd"] {} (fun _ _ _ => ((), some (.DelegateError "x"))) () [] false).workerOutcome
      = some (.DelegateError "x") ∧
    (ExternalCommandWithDelegate.call (σ := Unit) true
        (fun _ _ => { stdoutReads := [.line "a\n"], stderrReads := [], exitCode := 5 })
        ["cmd"] {} (fun _ _ _ => ((), some (.DelegateError "x"))) () [] false).retval
      = (if false then none
         else some ((fun (_ : List String) (_ : Kwargs) =>
           ({ stdoutReads := [.line "a\n"], stderrReads := [], exitCode := 5 } : Proc))
             ["cmd"] (ExternalCommand.popenKwargs true
               { ({} : Kwargs) with stdout := some .PIPE, stderr := some .PIPE })).exitCode) :=
  delegate_error_confined_to_worker Unit true
    (fun _ _ => { stdoutReads := [.line "a\n"], stderrReads := [], exitCode := 5 })
    ["cmd"] {} (fun _ _ _ => ((), some (.DelegateError "x"))) () [] false
    [] [] ⟨"stdout", "a\n"⟩ (.DelegateError "x") rfl rfl rfl

/-- Claim C9: an I/O error raised by `readline` ends that stream's reading
loop early, exactly as end-of-stream would — the events enqueued are
those of the lines read before the error — and the invocation is not
crashed: a `call` whose stdout stream raises after its lines behaves
identically (queue, deliveries, final state, exit code) to one whose
stdout stream simply ends there; only the reader thread itself dies with
the `IOError`, which `Thread.join` swallows. -/
theorem read_stream_ioerror_ends_stream (pre : List String)
    (rest : List ReadResult) (name : String) (σ : Type) (posixAvailable : Bool)
    (args0 : List String) (kw : Kwargs) (d : Delegate σ) (st : σ)
    (sched : List Bool) (interrupted : Bool) (stderrReads : List ReadResult)
    (c : Int) (errReads : List ReadResult)
    (h : ∀ l ∈ pre, l ≠ "")
    (he : errReads = pre.map ReadResult.line ++ .ioError :: rest) :
    (ExternalCommandWithDelegate.read_stream errReads name).1
      = (ExternalCommandWithDelegate.read_stream (pre.map ReadResult.line) name).1 ∧
    (ExternalCommandWithDelegate.read_stream errReads name).2 = some .IOError ∧
    (ExternalCommandWithDelegate.call posixAvailable
        (fun _ _ => { stdoutReads := errReads, stderrReads := stderrReads, exitCode := c })
        args0 kw d st sched interrupted).stdoutReaderOutcome = some .IOError ∧
    (ExternalCommandWithDelegate.call posixAvailable
        (fun _ _ => { stdoutReads := errReads, stderrReads := stderrReads, exitCode := c })
        args0 kw d st sched interrupted).queueItems
      = (ExternalCommandWithDelegate.call posixAvailable
        (fun _ _ => { stdoutReads := pre.map ReadResult.line, stderrReads := stderrReads, exitCode := c })
        args0 kw d st sched interrupted).queueItems ∧
    (ExternalCommandWithDelegate.call posixAvailable
        (fun _ _ => { stdoutReads := errReads, stderrReads := stderrReads, exitCode := c })
        args0 kw d st sched interrupted).delivered
      = (ExternalCommandWithDelegate.call posixAvailable
        (fun _ _ => { stdoutReads := pre.map ReadResult.line, stderrReads := stderrReads, exitCode := c })
        args0 kw d st sched interrupted).delivered ∧
    (ExternalCommandWithDelegate.call posixAvailable
        (fun _ _ => { stdoutReads := errReads, stderrReads := stderrReads, exitCode := c })
        args0 kw d st sched interrupted).finalState
      = (ExternalCommandWithDelegate.call posixAvailable
        (fun _ _ => { stdoutReads := pre.map ReadResult.line, stderrReads := stderrReads, exitCode := c })
        args0 kw d st sched interrupted).finalState ∧
    (ExternalCommandWithDelegate.call posixAvailable
        (fun _ _ => { stdoutReads := errReads, stderrReads := stderrReads, exitCode := c })
        args0 kw d st sched interrupted).workerOutcome
      = (ExternalCommandWithDelegate.call posixAvailable
        (fun _ _ => { stdoutReads := pre.map ReadResult.line, stderrReads := stderrReads, exitCode := c })
        args0 kw d st sched interrupted).workerOutcome ∧
    (ExternalCommandWithDelegate.call posixAvailable
        (fun _ _ => { stdoutReads := errReads, stderrReads := stderrReads, exitCode := c })
        args0 kw d st sched interrupted).retval
      = (ExternalCommandWithDelegate.call posixAvailable
        (fun _ _ => { stdoutReads := pre.map ReadResult.line, stderrReads := stderrReads, exitCode := c })
        args0 kw d st sched interrupted).retval := by
  subst he
  have hErrName := read_stream_ioError pre rest name h
  have hErr := read_stream_ioError pre rest "stdout" h
  have hEof := read_stream_lines pre "stdout" h
  refine ⟨?_, ?_, ?_, ?_, ?_, ?_, ?_, rfl⟩
  · rw [hErrName, read_stream_lines pre name h]
  · rw [hErrName]
  · simp only [ExternalCommandWithDelegate.call]
    rw [hErr]
  · simp only [ExternalCommandWithDelegate.call]
    rw [hErr, hEof]
  · simp only [ExternalCommandWithDelegate.call]
    rw [hErr, hEof]
  · simp only [ExternalCommandWithDelegate.call]
    rw [hErr, hEof]
  · simp only [ExternalCommandWithDelegate.call]
    rw [hErr, hEof]

/-- Claim C9 witness: a stdout stream that raises after the line `"a\n"`
yields the reader outcome `IOError`, and the `call` around it delivers the
same lines and returns the same exit code as one whose stream simply ends
after `"a\n"`. -/
theorem read_stream_ioerror_ends_stream_witness :
    (ExternalCommandWithDelegate.read_stream [.line "a\n", .ioError, .line "zz\n"]
      "stdout").2 = some .IOError ∧
    (ExternalCommandWithDelegate.call (σ := Unit) true
        (fun _ _ => { stdoutReads := [.line "a\n", .ioError, .line "zz\n"], stderrReads := [], exitCode := 3 })
        ["cmd"] {} (fun s _ _ => (s, none)) () [] false).stdoutReaderOutcome
      = some .IOError ∧
    (ExternalCommandWithDelegate.call (σ := Unit) true
        (fun _ _ => { stdoutReads := [.line "a\n", .ioError, .line "zz\n"], stderrReads := [], exitCode := 3 })
        ["cmd"] {} (fun s _ _ => (s, none)) () [] false).delivered
      = (ExternalCommandWithDelegate.call (σ := Unit) true
        (fun _ _ => { stdoutReads := [ReadResult.line "a\n"], stderrReads := [], exitCode := 3 })
        ["cmd"] {} (fun s _ _ => (s, none)) () [] false).delivered ∧
    (ExternalCommandWithDelegate.call (σ := Unit) true
        (fun _ _ => { stdoutReads := [.line "a\n", .ioError, .line "zz\n"], stderrReads := [], exitCode := 3 })
        ["cmd"] {} (fun s _ _ => (s, none)) () [] false).retval
      = (ExternalCommandWithDelegate.call (σ := Unit) true
        (fun _ _ => { stdoutReads := [ReadResult.line "a\n"], stderrReads := [], exitCode := 3 })
        ["cmd"] {} (fun s _ _ => (s, none)) () [] false).retval := by
  have H := read_stream_ioerror_ends_stream ["a\n"] [.line "zz\n"] "stdout" Unit
    true ["cmd"] {} (fun s _ _ => (s, none)) () [] false [] 3
    [.line "a\n", .ioError, .line "zz\n"] (by decide) rfl
  exact ⟨H.2.1, H.2.2.1, H.2.2.2.2.1, H.2.2.2.2.2.2.2⟩
